import Mathlib

/-!
Shallow embedding of the deferred task scheduler in `src/scheduler.rs`
(crate `youkoso`).

Timestamps (`OffsetDateTime`) are modelled as unbounded integers and the
signed `time::Duration` obtained by subtracting two timestamps as `Int`;
`std::time::Duration` is non-negative and modelled as `Nat`.  The opaque
job (`Pin<Box<dyn Future>>`) carries no data the scheduler inspects, so it
is modelled by a numeric identifier.

Rust's `BinaryHeap` is a max-heap: `peek` returns a greatest element with
respect to the element `Ord`, which for `Task` compares the `at` field
(`self.at.cmp(&other.at)`).  The heap is modelled as a list whose `peek`
selects a maximal element by `at`; ties are unspecified in the source, and
the model resolves them by first position, which no claim depends on.
-/

namespace Youkoso

/-- Absolute timestamps (`OffsetDateTime`), in abstract integer ticks. -/
abbrev Time := Int

/-- `std::time::Duration`: a non-negative span of time, in the same ticks. -/
abbrev Duration := Nat

/-- Models `std::time::Duration::MAX`, the astronomically large duration used
as the (never reached) fallback of `unwrap_or(Duration::MAX)`. -/
def durationMAX : Duration := 18446744073709551615 * 1000000000 + 999999999

/-- Models `TryInto<std::time::Duration> for time::Duration`: converting a
signed span to an unsigned one succeeds exactly when it is non-negative. -/
def tryIntoDuration (d : Int) : Option Duration :=
  if 0 ≤ d then some d.toNat else none

/-- `struct Task { at: OffsetDateTime, future: ... }`; the future is opaque
to the scheduler and represented by an identifier. -/
structure Task where
  «at» : Time
  jobId : Nat
deriving DecidableEq

/-- `struct Config`. -/
structure Config where
  max_poll_interval : Duration
  catch_up_limit : Option Duration
  prioritize_overdue : Bool
deriving DecidableEq

/-- `impl Default for Config` (60 s poll interval, no catch-up limit,
prioritize overdue), with one tick = one second. -/
def Config.defaultConfig : Config :=
  { max_poll_interval := 60, catch_up_limit := none, prioritize_overdue := true }

/-- The loop's `BinaryHeap<Task>`, as the multiset of its elements. -/
abbrev BinaryHeap := List Task

/-- The greater of two tasks under `impl Ord for Task`, which compares the
`at` fields; on ties the first argument is kept (tie order is unspecified
in the source). -/
def maxByAt (a b : Task) : Task := if a.«at» < b.«at» then b else a

/-- `BinaryHeap::peek`: a greatest element with respect to the element
`Ord` — for `Task`, a task with the largest `at`. -/
def BinaryHeap.peek : BinaryHeap → Option Task
  | [] => none
  | t :: ts => some (ts.foldl maxByAt t)

/-- Remove the first occurrence of a task from the heap's element list. -/
def eraseFirst : List Task → Task → List Task
  | [], _ => []
  | x :: xs, t => if x = t then xs else x :: eraseFirst xs t

/-- `BinaryHeap::pop`: remove and return the element `peek` yields. -/
def BinaryHeap.pop (h : BinaryHeap) : Option (Task × BinaryHeap) :=
  match BinaryHeap.peek h with
  | none => none
  | some t => some (t, eraseFirst h t)

/-- `BinaryHeap::push`. -/
def BinaryHeap.push (h : BinaryHeap) (t : Task) : BinaryHeap := t :: h

/-- The `PopIf` trait impl: peek the greatest element and pop it only when
the predicate holds of it. -/
def BinaryHeap.popIf (h : BinaryHeap) (p : Task → Bool) :
    Option (Task × BinaryHeap) :=
  match BinaryHeap.peek h with
  | none => none
  | some greatest => if p greatest then BinaryHeap.pop h else none

/-- `enum Request { Add(Task), Stop }`. -/
inductive Request
  | add (t : Task)
  | stop
deriving DecidableEq

/-- `late_by = (now - task.at).try_into().unwrap_or(Duration::MAX)`. -/
def lateBy (now : Time) (t : Task) : Duration :=
  (tryIntoDuration (now - t.«at»)).getD durationMAX

/-- What the loop does with one popped ready task. -/
inductive TaskOutcome
  | dispatched (t : Task)
  | skipped (t : Task)
deriving DecidableEq

/-- The body of the ready-task `while` loop for a single popped task:
skip it when a catch-up limit is configured and exceeded, otherwise spawn
its future. -/
def handleReady (cfg : Config) (now : Time) (t : Task) : TaskOutcome :=
  match cfg.catch_up_limit with
  | some limit =>
      if limit < lateBy now t then TaskOutcome.skipped t
      else TaskOutcome.dispatched t
  | none => TaskOutcome.dispatched t

/-- The ready-task `while let Some(task) = heap.pop_if(|task| task.at <= now)`
loop, with fuel bounding the number of pops. -/
def drainAux (cfg : Config) (now : Time) :
    Nat → BinaryHeap → List TaskOutcome × BinaryHeap
  | 0, h => ([], h)
  | Nat.succ fuel, h =>
    match BinaryHeap.popIf h (fun t => decide (t.«at» ≤ now)) with
    | none => ([], h)
    | some (t, h') =>
      let r := drainAux cfg now fuel h'
      (handleReady cfg now t :: r.1, r.2)

/-- Pop and handle every ready task; each pop removes one element, so the
initial heap size is enough fuel. -/
def drainReady (cfg : Config) (now : Time) (h : BinaryHeap) :
    List TaskOutcome × BinaryHeap :=
  drainAux cfg now h.length h

/-- The loop's `sleep_time` computation: from the peeked element, the time
until its `at` clamped to zero and capped at `max_poll_interval`; with an
empty heap, exactly `max_poll_interval`.  The clock is re-read here, so it
takes its own time argument. -/
def sleepTime (cfg : Config) (h : BinaryHeap) (now2 : Time) : Duration :=
  match BinaryHeap.peek h with
  | some next =>
      min ((tryIntoDuration (next.«at» - now2)).getD 0) cfg.max_poll_interval
  | none => cfg.max_poll_interval

/-- The event the `select!` resolves to: a received control message, the
channel reporting closure (`recv()` returned `None`), or the sleep timer
elapsing first. -/
inductive SelectEvent
  | msg (r : Request)
  | closed
  | timeout
deriving DecidableEq

/-- Result of one iteration of the loop body: the outcomes of the drained
ready tasks, the computed sleep duration, and the heap carried to the next
iteration — `none` when the loop `break`s. -/
structure IterResult where
  outcomes : List TaskOutcome
  sleep : Duration
  next : Option BinaryHeap
deriving DecidableEq

/-- One iteration of the `loop` in `launch_task_thread`: read `now`, drain
ready tasks, compute the sleep duration (with a second clock read `now2`),
then react to whichever `select!` arm fires. -/
def loopIter (cfg : Config) (h : BinaryHeap) (now now2 : Time)
    (ev : SelectEvent) : IterResult :=
  let d := drainReady cfg now h
  let st := sleepTime cfg d.2 now2
  match ev with
  | SelectEvent.msg (Request.add t) => ⟨d.1, st, some (BinaryHeap.push d.2 t)⟩
  | SelectEvent.msg Request.stop => ⟨d.1, st, none⟩
  | SelectEvent.closed => ⟨d.1, st, none⟩
  | SelectEvent.timeout => ⟨d.1, st, some d.2⟩

/-- Run the loop over a schedule of per-iteration clock readings and select
events, collecting the dispatched/skipped outcomes in order. -/
def runLoop (cfg : Config) :
    BinaryHeap → List (Time × Time × SelectEvent) → List TaskOutcome
  | _, [] => []
  | h, (now, now2, ev) :: rest =>
    let r := loopIter cfg h now now2 ev
    match r.next with
    | none => r.outcomes
    | some h' => r.outcomes ++ runLoop cfg h' rest

/-- `enum ScheduleError`. -/
inductive ScheduleError
  | taskRunnerFailedToStart
deriving DecidableEq

/-- `Result<(), ScheduleError>`. -/
inductive ScheduleResult
  | ok
  | err (e : ScheduleError)
deriving DecidableEq

/-- The observable state of `struct Scheduler`: its config, whether
`self.tx` holds a sender, and — as environment — whether the loop's
receiver is still alive (an unbounded sender's `send` fails only when the
receiver was dropped). -/
structure Scheduler where
  config : Config
  txSet : Bool
  channelOpen : Bool
deriving DecidableEq

/-- Externally visible actions a handle call performs. -/
inductive ScheduleEffect
  | spawnNow (jobId : Nat)
  | launchLoop
  | sendAdd (t : Task) (delivered : Bool)
  | sendStop (delivered : Bool)
deriving DecidableEq

/-- `Scheduler::launch_task_thread`: creates a fresh channel, stores the
sender in `self.tx` unconditionally, and spawns the loop holding the live
receiver. -/
def Scheduler.launch_task_thread (s : Scheduler) : Scheduler :=
  { s with txSet := true, channelOpen := true }

/-- `Scheduler::schedule(at, future)`: the overdue fast path spawns the
future immediately; otherwise the loop is lazily started and an `Add`
request is sent, its send result discarded (`let _ = tx.send(...)`). -/
def Scheduler.schedule (s : Scheduler) (nowv : Time) (due : Time)
    (jobId : Nat) : Scheduler × ScheduleResult × List ScheduleEffect :=
  if s.config.prioritize_overdue = true ∧ due ≤ nowv then
    (s, ScheduleResult.ok, [ScheduleEffect.spawnNow jobId])
  else
    let s1 := if s.txSet then s else s.launch_task_thread
    if s1.txSet then
      (s1, ScheduleResult.ok,
        (if s.txSet then [] else [ScheduleEffect.launchLoop]) ++
          [ScheduleEffect.sendAdd ⟨due, jobId⟩ s1.channelOpen])
    else
      (s1, ScheduleResult.err ScheduleError.taskRunnerFailedToStart, [])

/-- `Scheduler::stop`: when a sender is held, send `Stop` (result ignored)
and clear `self.tx`; otherwise do nothing. -/
def Scheduler.stop (s : Scheduler) : Scheduler × List ScheduleEffect :=
  if s.txSet then
    ({ s with txSet := false }, [ScheduleEffect.sendStop s.channelOpen])
  else (s, [])

/-- A minimum-due-time peek, following the spec's words that the queue
yields the entry with the smallest due_time first; kept for comparison
with the source's `BinaryHeap.peek`. -/
def peekMinByAt : BinaryHeap → Option Task
  | [] => none
  | t :: ts => some (ts.foldl (fun a b => if b.«at» < a.«at» then b else a) t)

/-- The sleep duration as the spec words it: measured from the queued entry
with the smallest due_time; kept for comparison with `sleepTime`. -/
def specSleepTime (cfg : Config) (h : BinaryHeap) (now2 : Time) : Duration :=
  match peekMinByAt h with
  | some next =>
      min ((tryIntoDuration (next.«at» - now2)).getD 0) cfg.max_poll_interval
  | none => cfg.max_poll_interval

end Youkoso

namespace Youkoso

/-- Claim C1 (counter-evaluation): on a queue holding tasks due at 0 and at
5, `BinaryHeap.peek` — Rust's max-heap peek under `Task`'s `Ord` on `at` —
yields the task due at 5, the largest due time, even though a task with the
strictly smaller due time 0 is in the queue.  The claim that peek/pop yield
the entry with the smallest due_time is false of the code. -/
theorem c1_peek_yields_largest_counterexample :
    BinaryHeap.peek [Task.mk 0 0, Task.mk 5 1] = some (Task.mk 5 1) ∧
    Task.mk 0 0 ∈ ([Task.mk 0 0, Task.mk 5 1] : BinaryHeap) ∧
    (Task.mk 0 0).«at» < (Task.mk 5 1).«at» := by
  refine ⟨rfl, ?_, ?_⟩
  · exact List.mem_cons_self _ _
  · decide

/-- Task A, due 10 ticks after submission time 0. -/
def taskA : Task := Task.mk 10 0

/-- Task B, due 5 ticks after submission time 0. -/
def taskB : Task := Task.mk 5 1

/-- Task C, due 1 tick after submission time 0. -/
def taskC : Task := Task.mk 1 2

/-- Claim C2 (counter-evaluation): submitting A(now+10), B(now+5), C(now+1)
in that order at time 0 under the default config, then waking at time 10,
the loop dispatches in order A, B, C — not C, B, A as claimed, and with the
due times 10, 5, 1 strictly decreasing rather than non-decreasing.  The
max-heap pops the largest due time first, and no entry is popped before the
largest due time has passed. -/
theorem c2_dispatch_order_counterexample :
    runLoop Config.defaultConfig []
        [(0, 0, SelectEvent.msg (Request.add taskA)),
         (0, 0, SelectEvent.msg (Request.add taskB)),
         (0, 0, SelectEvent.msg (Request.add taskC)),
         (10, 10, SelectEvent.msg Request.stop)] =
      [TaskOutcome.dispatched taskA, TaskOutcome.dispatched taskB,
       TaskOutcome.dispatched taskC] ∧
    [TaskOutcome.dispatched taskA, TaskOutcome.dispatched taskB,
       TaskOutcome.dispatched taskC] ≠
      [TaskOutcome.dispatched taskC, TaskOutcome.dispatched taskB,
       TaskOutcome.dispatched taskA] := by
  constructor
  · rfl
  · decide

/-- Claim C3 (counter-evaluation): with `max_poll_interval = 1000`, a queue
holding entries due at 10 and at 100, and the clock at 0, the code computes
a wait of 100 (measured from the peeked entry, the one with the LARGEST
due_time), while the claim's formula — measured from the entry with the
smallest due_time — gives 10. -/
theorem c3_sleep_time_counterexample :
    sleepTime ⟨1000, none, true⟩ [Task.mk 10 0, Task.mk 100 1] 0 = 100 ∧
    specSleepTime ⟨1000, none, true⟩ [Task.mk 10 0, Task.mk 100 1] 0 = 10 ∧
    (100 : Duration) ≠ 10 := by
  refine ⟨rfl, rfl, ?_⟩
  decide

/-- For a ready task the lateness conversion takes the success branch. -/
theorem lateBy_of_ready (now : Time) (t : Task) (h : t.«at» ≤ now) :
    lateBy now t = (now - t.«at»).toNat := by
  unfold lateBy tryIntoDuration
  have h0 : (0 : Int) ≤ now - t.«at» := Int.sub_nonneg.mpr h
  simp [h0]

/-- Claim C4: for a task popped as ready (`at ≤ now`): when
`catch_up_limit = some d`, the task is skipped — not run, with no error —
exactly when its lateness `now - at` exceeds `d`, and dispatched when the
lateness is at most `d`; when `catch_up_limit = none`, the task is
dispatched regardless of lateness. -/
theorem c4_catch_up_limit (cfg : Config) (now : Time) (t : Task)
    (hready : t.«at» ≤ now) :
    (∀ d, cfg.catch_up_limit = some d →
        (d < (now - t.«at»).toNat →
          handleReady cfg now t = TaskOutcome.skipped t) ∧
        ((now - t.«at»).toNat ≤ d →
          handleReady cfg now t = TaskOutcome.dispatched t)) ∧
    (cfg.catch_up_limit = none →
        handleReady cfg now t = TaskOutcome.dispatched t) := by
  have hl := lateBy_of_ready now t hready
  constructor
  · intro d hd
    constructor
    · intro hgt
      unfold handleReady
      rw [hd, hl]
      simp [hgt]
    · intro hle
      unfold handleReady
      rw [hd, hl]
      simp [Nat.not_lt.mpr hle]
  · intro hn
    unfold handleReady
    rw [hn]

/-- Claim C4 witness: with `catch_up_limit = 2`, a ready task due 5 ticks
ago is skipped and a ready task due 1 tick ago is dispatched. -/
theorem c4_catch_up_limit_witness :
    handleReady ⟨60, some 2, true⟩ 0 (Task.mk (-5) 0) =
      TaskOutcome.skipped (Task.mk (-5) 0) ∧
    handleReady ⟨60, some 2, true⟩ 0 (Task.mk (-1) 1) =
      TaskOutcome.dispatched (Task.mk (-1) 1) :=
  ⟨((c4_catch_up_limit ⟨60, some 2, true⟩ 0 (Task.mk (-5) 0)
      (by decide)).1 2 rfl).1 (by decide),
   ((c4_catch_up_limit ⟨60, some 2, true⟩ 0 (Task.mk (-1) 1)
      (by decide)).1 2 rfl).2 (by decide)⟩

/-- Claim C5: with `prioritize_overdue` enabled and `due ≤ now`, `schedule`
spawns the job immediately, returns `Ok`, and leaves the scheduler state
untouched — in particular no `Add` is sent and the loop is not started, so
the task never enters the queue. -/
theorem c5_prioritize_overdue (s : Scheduler) (nowv due : Time) (j : Nat)
    (hp : s.config.prioritize_overdue = true) (hdue : due ≤ nowv) :
    s.schedule nowv due j = (s, ScheduleResult.ok, [ScheduleEffect.spawnNow j]) := by
  unfold Scheduler.schedule
  simp [hp, hdue]

/-- Claim C5 witness: a concrete overdue submission under the default
config takes the immediate-dispatch fast path. -/
theorem c5_prioritize_overdue_witness :
    Scheduler.schedule ⟨Config.defaultConfig, false, false⟩ 0 (-1) 7 =
      (⟨Config.defaultConfig, false, false⟩, ScheduleResult.ok,
        [ScheduleEffect.spawnNow 7]) :=
  c5_prioritize_overdue ⟨Config.defaultConfig, false, false⟩ 0 (-1) 7 rfl
    (by decide)

/-- `schedule` always returns `Ok`: the overdue fast path returns `Ok`, and
otherwise `launch_task_thread` unconditionally stores a sender, so the
`tx = None` error branch is unreachable; the send result is discarded. -/
theorem schedule_returns_ok (s : Scheduler) (nowv due : Time) (j : Nat) :
    (s.schedule nowv due j).2.1 = ScheduleResult.ok := by
  unfold Scheduler.schedule
  split
  · rfl
  · by_cases htx : s.txSet <;>
      simp [htx, Scheduler.launch_task_thread]

/-- Claim C6 counterexample: a scheduler whose control channel is closed
(`channelOpen = false`, receiver gone) and whose fast path does not apply
still gets `Ok` back from `schedule` — the claimed `TaskRunnerUnavailable`
error is not returned on a closed channel. -/
theorem c6_closed_channel_counterexample :
    (Scheduler.schedule ⟨⟨60, none, false⟩, true, false⟩ 0 10 0).2.1 =
      ScheduleResult.ok ∧
    (⟨⟨60, none, false⟩, true, false⟩ : Scheduler).channelOpen = false := by
  exact ⟨rfl, rfl⟩

/-- Claim C6 amended: `schedule` never returns the error at all — the
failed-to-start branch is unreachable because `launch_task_thread`
unconditionally sets the sender, and a send on a closed channel is ignored
(`Ok` is returned and the task silently discarded). -/
theorem c6_schedule_error_unreachable (s : Scheduler) (nowv due : Time)
    (j : Nat) :
    (s.schedule nowv due j).2.1 = ScheduleResult.ok :=
  schedule_returns_ok s nowv due j

/-- Claim C7: `stop` is idempotent — after one `stop`, a second `stop`
returns the same state unchanged with no effects (and, being a total
function, neither errors nor panics). -/
theorem c7_stop_idempotent (s : Scheduler) :
    Scheduler.stop (s.stop).1 = ((s.stop).1, ([] : List ScheduleEffect)) := by
  unfold Scheduler.stop
  by_cases h : s.txSet <;> simp [h]

/-- Claim C8: an iteration ends the loop exactly when the `select!` yields
`Stop` or reports the channel closed — never because of the queue's
contents; and with an empty queue the iteration sleeps exactly
`max_poll_interval` and, when the timer elapses, the loop simply continues
with the still-empty queue. -/
theorem c8_loop_termination (cfg : Config) (h : BinaryHeap)
    (now now2 : Time) (ev : SelectEvent) :
    ((loopIter cfg h now now2 ev).next = none ↔
        ev = SelectEvent.msg Request.stop ∨ ev = SelectEvent.closed) ∧
    (loopIter cfg [] now now2 SelectEvent.timeout).sleep =
        cfg.max_poll_interval ∧
    (loopIter cfg [] now now2 SelectEvent.timeout).next = some [] := by
  refine ⟨?_, rfl, rfl⟩
  cases ev with
  | msg r =>
    cases r with
    | add t => simp [loopIter]
    | stop => simp [loopIter]
  | closed => simp [loopIter]
  | timeout => simp [loopIter]

/-- Claim C9: `schedule` never returns an `Err`: `launch_task_thread`
unconditionally stores the sender (so the failed-to-start branch cannot
be reached), and a send onto a closed channel is ignored — the `Add` is
recorded as undelivered while the call still returns `Ok`. -/
theorem c9_schedule_never_errs (s : Scheduler) (nowv due : Time) (j : Nat) :
    (s.schedule nowv due j).2.1 = ScheduleResult.ok ∧
    (Scheduler.launch_task_thread s).txSet = true :=
  ⟨schedule_returns_ok s nowv due j, rfl⟩

/-- Claim C10: any task the ready-pop step yields satisfies `at ≤ now`, so
its lateness `now - at` is non-negative, the conversion to an unsigned
duration succeeds, and `lateBy` equals the converted value — the
`unwrap_or(Duration::MAX)` fallback is never taken. -/
theorem c10_popped_task_is_ready (h h' : BinaryHeap) (now : Time) (t : Task)
    (hpop : BinaryHeap.popIf h (fun u => decide (u.«at» ≤ now)) =
      some (t, h')) :
    t.«at» ≤ now ∧
    tryIntoDuration (now - t.«at») = some ((now - t.«at»).toNat) ∧
    lateBy now t = (now - t.«at»).toNat := by
  have hready : t.«at» ≤ now := by
    unfold BinaryHeap.popIf at hpop
    cases hpeek : BinaryHeap.peek h with
    | none => rw [hpeek] at hpop; exact absurd hpop (by simp)
    | some g =>
      rw [hpeek] at hpop
      by_cases hg : g.«at» ≤ now
      · simp only [hg, decide_eq_true_eq, if_pos] at hpop
        unfold BinaryHeap.pop at hpop
        rw [hpeek] at hpop
        obtain ⟨hget, -⟩ := Prod.mk.injEq .. ▸ Option.some.injEq .. ▸ hpop
        exact hget ▸ hg
      · simp [hg] at hpop
  have h0 : (0 : Int) ≤ now - t.«at» := Int.sub_nonneg.mpr hready
  refine ⟨hready, ?_, lateBy_of_ready now t hready⟩
  unfold tryIntoDuration
  simp [h0]

/-- Claim C10 witness: popping from the one-element heap holding a task due
exactly now. -/
theorem c10_popped_task_is_ready_witness :
    (Task.mk 0 0).«at» ≤ (0 : Time) ∧
    tryIntoDuration ((0 : Time) - (Task.mk 0 0).«at») =
      some (((0 : Time) - (Task.mk 0 0).«at»).toNat) ∧
    lateBy 0 (Task.mk 0 0) = ((0 : Time) - (Task.mk 0 0).«at»).toNat :=
  c10_popped_task_is_ready [Task.mk 0 0] [] 0 (Task.mk 0 0) (by decide)

end Youkoso
